import Mathlib

/-!
Verification development for the AI Video Editor backend (src/main.py,
src/schemas.py). The core subject is the in-memory preview hub
(class PreviewHub): a mapping from project identifiers to the list of
currently connected websocket handles, with operations connect,
disconnect and broadcast, plus the per-connection receive loop of the
websocket endpoint (preview_ws) and the login endpoint.

Modelling choices:
- A websocket handle is opaque; we model it as a natural number (WS).
- The Python dict `connections : Dict[str, List[WebSocket]]` is modelled
  as an association list `List (String × List WS)` in insertion order;
  lookup returns the first entry with a matching key (keys are unique in
  every state the operations build, since an entry is only created by
  `setdefault` when the key is absent).
- `await ws.send_json(event)` either succeeds or raises; broadcast
  catches every exception and disconnects the offending handle. We model
  the outcome of a send attempt by a function `f : WS → Bool`
  (`f w = true` means the send to `w` raises). Broadcast is therefore a
  total function: no error escapes it, matching the blanket
  `except Exception` handlers in the source.
- `datetime.now(timezone.utc).isoformat()` is modelled by an explicit
  UTC calendar time record and a rendering function with the exact
  formatting behaviour of `datetime.isoformat` for an aware UTC value.
-/

namespace PreviewApi

/-- An opaque websocket connection handle. -/
abbrev WS := Nat

/-- The hub state: `PreviewHub.connections`, a dict from project id to the
list of registered connection handles, in insertion order. -/
abbrev Hub := List (String × List WS)

/-- JSON values, used for inbound payloads and outbound envelopes. Numbers
are modelled as integers; the hub never inspects a payload, so the exact
scalar carrier is irrelevant to every property proved below. -/
inductive Json where
  | null : Json
  | bool : Bool → Json
  | num : Int → Json
  | str : String → Json
  | arr : List Json → Json
  | obj : List (String × Json) → Json

/-- Dict lookup: the value stored under key `p`, if present
(`p in connections` / `connections[p]`). -/
def lookupProj (p : String) : Hub → Option (List WS)
  | [] => none
  | (q, v) :: rest => if q = p then some v else lookupProj p rest

/-- Replace the value stored under key `p` (in-place list mutation of
`connections[p]` in the source). -/
def setConns (p : String) (v : List WS) : Hub → Hub
  | [] => []
  | (q, w) :: rest => if q = p then (q, v) :: rest else (q, w) :: setConns p v rest

/-- `connections.get(p, [])`: the registered list for `p`, defaulting to
the empty list when the key is absent. -/
def getConns (h : Hub) (p : String) : List WS :=
  (lookupProj p h).getD []

/-- `PreviewHub.connect` (src/main.py lines 41-43), after the transport
accept: `self.connections.setdefault(project_id, []).append(websocket)`.
If the key is present the handle is appended to the stored list (even if
it is already there — the container is a list, not a set); otherwise a
fresh entry holding just the handle is inserted at the end of the dict. -/
def connect (h : Hub) (p : String) (w : WS) : Hub :=
  match lookupProj p h with
  | some v => setConns p (v ++ [w]) h
  | none => h ++ [(p, [w])]

/-- `PreviewHub.disconnect` (src/main.py lines 45-47):
`if project_id in self.connections and websocket in self.connections[project_id]:
self.connections[project_id].remove(websocket)` — removes the first
occurrence of the handle when the key exists and the handle is a member;
otherwise does nothing. -/
def disconnect (h : Hub) (p : String) (w : WS) : Hub :=
  match lookupProj p h with
  | some v => if w ∈ v then setConns p (v.erase w) h else h
  | none => h

/-- The outcome of one `PreviewHub.broadcast` call: the hub state after
the call, the (handle, event) pairs successfully delivered in order, and
the handles to which a send was attempted, in order. -/
structure BroadcastResult where
  state : Hub
  delivered : List (WS × Json)
  attempted : List WS

/-- The loop body of `PreviewHub.broadcast` (src/main.py lines 49-56):
iterate over the snapshot list; for each handle attempt the send; on any
exception (`WebSocketDisconnect` or `Exception`, both handled
identically) call `disconnect` on the current state and continue. -/
def broadcastAux (p : String) (e : Json) (f : WS → Bool) :
    List WS → Hub → BroadcastResult
  | [], h => ⟨h, [], []⟩
  | w :: rest, h =>
    if f w then
      let r := broadcastAux p e f rest (disconnect h p w)
      ⟨r.state, r.delivered, w :: r.attempted⟩
    else
      let r := broadcastAux p e f rest h
      ⟨r.state, (w, e) :: r.delivered, w :: r.attempted⟩

/-- `PreviewHub.broadcast` (src/main.py lines 49-56):
`for ws in list(self.connections.get(project_id, [])): ...` — the
iteration runs over a copy (snapshot) of the registered list taken once
at the start of the call. -/
def broadcast (h : Hub) (p : String) (e : Json) (f : WS → Bool) : BroadcastResult :=
  broadcastAux p e f (getConns h p) h

/-- A UTC wall-clock instant as produced by `datetime.now(timezone.utc)`. -/
structure DateTimeUtc where
  year : Nat
  month : Nat
  day : Nat
  hour : Nat
  minute : Nat
  second : Nat
  microsecond : Nat

/-- Decimal rendering of `n` left-padded with zeros to `width` digits. -/
def padNum (width : Nat) (n : Nat) : String :=
  String.mk (List.replicate (width - (toString n).length) '0') ++ toString n

/-- `datetime.isoformat()` for an aware UTC datetime:
`YYYY-MM-DDTHH:MM:SS[.ffffff]+00:00`, the microsecond part omitted when
it is zero. -/
def isoformat (d : DateTimeUtc) : String :=
  padNum 4 d.year ++ "-" ++ padNum 2 d.month ++ "-" ++ padNum 2 d.day ++ "T" ++
  padNum 2 d.hour ++ ":" ++ padNum 2 d.minute ++ ":" ++ padNum 2 d.second ++
  (if d.microsecond = 0 then "" else "." ++ padNum 6 d.microsecond) ++ "+00:00"

/-- The event envelope built by `preview_ws` (src/main.py line 169):
`{"type": "event", "data": data, "ts": datetime.now(timezone.utc).isoformat()}`. -/
def envelope (data : Json) (t : DateTimeUtc) : Json :=
  Json.obj [("type", Json.str "event"), ("data", data), ("ts", Json.str (isoformat t))]

/-- One iteration of the receive loop of `preview_ws` (src/main.py lines
167-169): a payload `data` arrives from a subscriber of project `p` at
server time `t`, is wrapped into the envelope, and broadcast to `p`. -/
def previewStep (h : Hub) (p : String) (data : Json) (t : DateTimeUtc)
    (f : WS → Bool) : BroadcastResult :=
  broadcast h p (envelope data t) f

/-- The keys of a JSON object, in order. -/
def objKeys : Json → List String
  | Json.obj fields => fields.map (fun kv => kv.1)
  | _ => []

/-- The value stored under key `k` of a JSON object (first occurrence). -/
def objGet (k : String) : Json → Option Json
  | Json.obj fields => (fields.find? (fun kv => kv.1 == k)).map (fun kv => kv.2)
  | _ => none

/-- Every handle registered in any entry of the hub. -/
def allConns (h : Hub) : List WS :=
  (h.map (fun e => e.2)).flatten

/-- One hub-state transition of the running system. The only caller of
`PreviewHub.connect` is the endpoint `preview_ws` (src/main.py line 165),
which registers its freshly accepted websocket object exactly once, under
the single project id of its path — so a connect step carries a handle
that is not currently registered anywhere. Disconnect and broadcast may
happen with arbitrary arguments. -/
inductive Step : Hub → Hub → Prop where
  | conn (h : Hub) (p : String) (w : WS) (fresh : w ∉ allConns h) :
      Step h (connect h p w)
  | disc (h : Hub) (p : String) (w : WS) : Step h (disconnect h p w)
  | bcast (h : Hub) (p : String) (e : Json) (f : WS → Bool) :
      Step h (broadcast h p e f).state

/-- Hub states reachable from the initial empty registry
(`self.connections = {}` in `PreviewHub.__init__`). -/
inductive Reachable : Hub → Prop where
  | init : Reachable []
  | step {h h' : Hub} : Reachable h → Step h h' → Reachable h'

/-- A connection handle appears in at most one subscriber set at a time. -/
def AtMostOne (h : Hub) : Prop :=
  ∀ (w : WS) (p q : String), w ∈ getConns h p → w ∈ getConns h q → p = q

/-- Modelled from the spec: the document store (module `database`,
imported by src/main.py but not under src/) exposes
`find(collection_name, filter, limit) -> list of documents` over a
schemaless store; `db["user"].find_one({"email": ...})` returns the first
stored user document whose email matches, or nothing. A user document is
modelled by its Mongo object id and the email it was created with. -/
structure UserDoc where
  oid : Nat
  email : String

/-- The stored user collection, in insertion order. -/
abbrev UserDb := List UserDoc

/-- Modelled from the spec: `find_one` on the user collection filtered by
email — the first matching document, if any. -/
def find_one (dbase : UserDb) (email : String) : Option UserDoc :=
  dbase.find? (fun d => d.email == email)

/-- Modelled from the spec: `create(collection_name, document) -> id`
appends exactly one new document to the collection and returns its id;
the freshly generated object id is passed in as `newId`. -/
def create_document (dbase : UserDb) (email : String) (newId : Nat) :
    Nat × UserDb :=
  (newId, dbase ++ [⟨newId, email⟩])

/-- The response of the login endpoint together with the store state it
leaves behind. -/
structure LoginResult where
  token : String
  user_id : String
  store : UserDb

/-- The `login` endpoint (src/main.py lines 76-85): look up the request
email; if a user document exists, reuse its id, otherwise create exactly
one new document; in both cases mint a fresh opaque token
(`str(uuid.uuid4())`, modelled by the parameter `freshUuid`, which is
drawn from the random generator and not from any stored state). -/
def login (dbase : UserDb) (email : String) (newId : Nat)
    (freshUuid : String) : LoginResult :=
  match find_one dbase email with
  | some doc => ⟨freshUuid, toString doc.oid, dbase⟩
  | none =>
    let c := create_document dbase email newId
    ⟨freshUuid, toString c.1, c.2⟩

/-! ### Lemmas about the dict operations -/

theorem lookupProj_setConns_self {p : String} {h : Hub} {v : List WS} (v' : List WS)
    (hl : lookupProj p h = some v) :
    lookupProj p (setConns p v' h) = some v' := by
  induction h with
  | nil => simp [lookupProj] at hl
  | cons kv rest ih =>
    obtain ⟨k, w⟩ := kv
    by_cases hk : k = p
    · simp [lookupProj, setConns, hk]
    · simp only [lookupProj, setConns, hk, if_false] at hl ⊢
      exact ih hl

theorem lookupProj_setConns_ne {p q : String} (hq : q ≠ p) (v' : List WS) (h : Hub) :
    lookupProj q (setConns p v' h) = lookupProj q h := by
  induction h with
  | nil => rfl
  | cons kv rest ih =>
    obtain ⟨k, w⟩ := kv
    by_cases hk : k = p
    · subst hk
      simp [lookupProj, setConns, Ne.symm hq]
    · by_cases hkq : k = q <;> simp [lookupProj, setConns, hk, hkq, ih, hq]

theorem lookupProj_append (q : String) (h l : Hub) :
    lookupProj q (h ++ l) =
      match lookupProj q h with
      | some v => some v
      | none => lookupProj q l := by
  induction h with
  | nil => rfl
  | cons kv rest ih =>
    obtain ⟨k, w⟩ := kv
    by_cases hk : k = q <;> simp [lookupProj, hk, ih]

theorem getConns_connect_self (h : Hub) (p : String) (w : WS) :
    getConns (connect h p w) p = getConns h p ++ [w] := by
  unfold connect
  cases hl : lookupProj p h with
  | none =>
    simp only [getConns, lookupProj_append, hl]
    simp [lookupProj]
  | some v =>
    simp [getConns, hl, lookupProj_setConns_self _ hl]

theorem getConns_connect_ne {p q : String} (hq : q ≠ p) (h : Hub) (w : WS) :
    getConns (connect h p w) q = getConns h q := by
  unfold connect
  cases hl : lookupProj p h with
  | none =>
    simp only [getConns, lookupProj_append]
    cases hlq : lookupProj q h with
    | none => simp [lookupProj, Ne.symm hq]
    | some v => simp
  | some v => simp [getConns, lookupProj_setConns_ne hq]

theorem getConns_disconnect_self (h : Hub) (p : String) (w : WS) :
    getConns (disconnect h p w) p = (getConns h p).erase w := by
  unfold disconnect
  cases hl : lookupProj p h with
  | none => simp [getConns, hl]
  | some v =>
    by_cases hw : w ∈ v
    · simp [getConns, hw, hl, lookupProj_setConns_self _ hl]
    · simp [getConns, hw, hl, List.erase_of_not_mem hw]

theorem getConns_disconnect_ne {p q : String} (hq : q ≠ p) (h : Hub) (w : WS) :
    getConns (disconnect h p w) q = getConns h q := by
  unfold disconnect
  cases hl : lookupProj p h with
  | none => rfl
  | some v =>
    by_cases hw : w ∈ v
    · simp [getConns, hw, lookupProj_setConns_ne hq]
    · simp [hw]

/-! ### Lemmas about broadcast -/

theorem broadcastAux_delivered (p : String) (e : Json) (f : WS → Bool) :
    ∀ (l : List WS) (h : Hub),
      (broadcastAux p e f l h).delivered =
        (l.filter (fun w => !f w)).map (fun w => (w, e))
  | [], h => rfl
  | w :: rest, h => by
    cases hw : f w <;>
      simp [broadcastAux, hw, broadcastAux_delivered p e f rest]

theorem broadcastAux_attempted (p : String) (e : Json) (f : WS → Bool) :
    ∀ (l : List WS) (h : Hub), (broadcastAux p e f l h).attempted = l
  | [], h => rfl
  | w :: rest, h => by
    cases hw : f w <;>
      simp [broadcastAux, hw, broadcastAux_attempted p e f rest]

/-- The effect of one broadcast pass on the stored list for the target
project: for each snapshot element whose send fails, erase its first
occurrence from the current list. -/
def eraseFails (f : WS → Bool) : List WS → List WS → List WS
  | [], v => v
  | w :: rest, v => if f w then eraseFails f rest (v.erase w) else eraseFails f rest v

theorem broadcastAux_state_self (p : String) (e : Json) (f : WS → Bool) :
    ∀ (l : List WS) (h : Hub),
      getConns (broadcastAux p e f l h).state p = eraseFails f l (getConns h p)
  | [], h => rfl
  | w :: rest, h => by
    cases hw : f w
    · simp [broadcastAux, hw, eraseFails, broadcastAux_state_self p e f rest]
    · simp [broadcastAux, hw, eraseFails, broadcastAux_state_self p e f rest,
        getConns_disconnect_self]

theorem broadcastAux_state_ne {p q : String} (hq : q ≠ p) (e : Json) (f : WS → Bool) :
    ∀ (l : List WS) (h : Hub),
      getConns (broadcastAux p e f l h).state q = getConns h q
  | [], h => rfl
  | w :: rest, h => by
    cases hw : f w
    · simp [broadcastAux, hw, broadcastAux_state_ne hq e f rest]
    · simp [broadcastAux, hw, broadcastAux_state_ne hq e f rest,
        getConns_disconnect_ne hq]

theorem eraseFails_cons {f : WS → Bool} {x : WS} (hx : f x = false) :
    ∀ (l : List WS) (v : List WS), eraseFails f l (x :: v) = x :: eraseFails f l v
  | [], v => rfl
  | w :: rest, v => by
    cases hw : f w
    · simp [eraseFails, hw, eraseFails_cons hx rest]
    · have hne : x ≠ w := by
        intro hxw
        rw [hxw, hw] at hx
        exact Bool.noConfusion hx
      rw [eraseFails, if_pos hw, List.erase_cons_tail, eraseFails, if_pos hw,
        eraseFails_cons hx rest]
      simp [hne]

theorem eraseFails_self (f : WS → Bool) :
    ∀ l : List WS, eraseFails f l l = l.filter (fun w => !f w)
  | [] => rfl
  | x :: xs => by
    cases hx : f x
    · rw [eraseFails, if_neg (by simp [hx]), eraseFails_cons hx,
        eraseFails_self f xs]
      simp [hx]
    · rw [eraseFails, if_pos hx, List.erase_cons_head, eraseFails_self f xs]
      simp [hx]

theorem broadcast_delivered (h : Hub) (p : String) (e : Json) (f : WS → Bool) :
    (broadcast h p e f).delivered =
      ((getConns h p).filter (fun w => !f w)).map (fun w => (w, e)) :=
  broadcastAux_delivered p e f (getConns h p) h

theorem broadcast_attempted (h : Hub) (p : String) (e : Json) (f : WS → Bool) :
    (broadcast h p e f).attempted = getConns h p :=
  broadcastAux_attempted p e f (getConns h p) h

theorem getConns_broadcast_self (h : Hub) (p : String) (e : Json) (f : WS → Bool) :
    getConns (broadcast h p e f).state p = (getConns h p).filter (fun w => !f w) := by
  rw [broadcast, broadcastAux_state_self, eraseFails_self]

theorem getConns_broadcast_ne {p q : String} (hq : q ≠ p) (h : Hub) (e : Json)
    (f : WS → Bool) :
    getConns (broadcast h p e f).state q = getConns h q :=
  broadcastAux_state_ne hq e f (getConns h p) h

/-! ### The at-most-one-project invariant -/

theorem mem_allConns_of_mem_getConns {w : WS} {q : String} :
    ∀ {h : Hub}, w ∈ getConns h q → w ∈ allConns h := by
  intro h
  induction h with
  | nil => simp [getConns, lookupProj]
  | cons kv rest ih =>
    obtain ⟨k, v⟩ := kv
    by_cases hk : k = q
    · simp only [getConns, lookupProj, hk, if_pos rfl, Option.getD_some, allConns,
        List.map_cons, List.flatten_cons]
      intro hw
      exact List.mem_append_left _ hw
    · simp only [getConns, lookupProj, hk, if_false, allConns, List.map_cons,
        List.flatten_cons]
      intro hw
      exact List.mem_append_right _ (ih hw)

theorem getConns_disconnect_subset {x w : WS} {p q : String} {h : Hub}
    (hx : x ∈ getConns (disconnect h p w) q) : x ∈ getConns h q := by
  by_cases hq : q = p
  · subst hq
    rw [getConns_disconnect_self] at hx
    exact List.mem_of_mem_erase hx
  · rwa [getConns_disconnect_ne hq] at hx

theorem getConns_broadcast_subset {x : WS} {p q : String} {h : Hub} {e : Json}
    {f : WS → Bool} (hx : x ∈ getConns (broadcast h p e f).state q) :
    x ∈ getConns h q := by
  by_cases hq : q = p
  · subst hq
    rw [getConns_broadcast_self] at hx
    exact (List.mem_filter.mp hx).1
  · rwa [getConns_broadcast_ne hq] at hx

theorem atMostOne_connect {h : Hub} {p : String} {w : WS} (inv : AtMostOne h)
    (fresh : w ∉ allConns h) : AtMostOne (connect h p w) := by
  intro x p₁ p₂ h₁ h₂
  have mem_cases : ∀ q : String, x ∈ getConns (connect h p w) q →
      x ∈ getConns h q ∨ (q = p ∧ x = w) := by
    intro q hq
    by_cases hqp : q = p
    · subst hqp
      rw [getConns_connect_self] at hq
      rcases List.mem_append.mp hq with hold | hnew
      · exact Or.inl hold
      · exact Or.inr ⟨rfl, List.mem_singleton.mp hnew⟩
    · rw [getConns_connect_ne hqp] at hq
      exact Or.inl hq
  rcases mem_cases p₁ h₁ with m₁ | ⟨e₁, hx₁⟩
  · rcases mem_cases p₂ h₂ with m₂ | ⟨e₂, hx₂⟩
    · exact inv x p₁ p₂ m₁ m₂
    · exact absurd (mem_allConns_of_mem_getConns (hx₂ ▸ m₁)) fresh
  · rcases mem_cases p₂ h₂ with m₂ | ⟨e₂, hx₂⟩
    · exact absurd (mem_allConns_of_mem_getConns (hx₁ ▸ m₂)) fresh
    · rw [e₁, e₂]

theorem atMostOne_disconnect {h : Hub} {p : String} {w : WS} (inv : AtMostOne h) :
    AtMostOne (disconnect h p w) := by
  intro x p₁ p₂ h₁ h₂
  exact inv x p₁ p₂ (getConns_disconnect_subset h₁) (getConns_disconnect_subset h₂)

theorem atMostOne_broadcast {h : Hub} {p : String} {e : Json} {f : WS → Bool}
    (inv : AtMostOne h) : AtMostOne (broadcast h p e f).state := by
  intro x p₁ p₂ h₁ h₂
  exact inv x p₁ p₂ (getConns_broadcast_subset h₁) (getConns_broadcast_subset h₂)

theorem step_atMostOne {h h' : Hub} (hs : Step h h') (inv : AtMostOne h) :
    AtMostOne h' := by
  cases hs with
  | conn p w fresh => exact atMostOne_connect inv fresh
  | disc p w => exact atMostOne_disconnect inv
  | bcast p e f => exact atMostOne_broadcast inv

theorem reachable_atMostOne {h : Hub} (hr : Reachable h) : AtMostOne h := by
  induction hr with
  | init => intro x p₁ p₂ h₁; simp [getConns, lookupProj] at h₁
  | step _ hs ih => exact step_atMostOne hs ih

/-! ### Claim theorems -/

/-- C1: for every project with registered subscribers, a message sent by
one subscriber is broadcast to every subscriber of that project,
including the sender itself (echo-to-sender), provided no transport send
fails: each subscriber receives the event envelope built from the
payload and the server timestamp. -/
theorem fanout_including_sender (h : Hub) (p : String) (sender : WS) (data : Json)
    (t : DateTimeUtc) (f : WS → Bool) (hs : sender ∈ getConns h p)
    (hok : ∀ w ∈ getConns h p, f w = false) :
    (sender, envelope data t) ∈ (previewStep h p data t f).delivered ∧
    ∀ w ∈ getConns h p, (w, envelope data t) ∈ (previewStep h p data t f).delivered := by
  have key : ∀ w ∈ getConns h p,
      (w, envelope data t) ∈ (previewStep h p data t f).delivered := by
    intro w hw
    rw [previewStep, broadcast_delivered]
    exact List.mem_map.mpr ⟨w, List.mem_filter.mpr ⟨hw, by simp [hok w hw]⟩, rfl⟩
  exact ⟨key sender hs, key⟩

/-- Witness for C1: with subscribers 1, 2, 3 of project "abc" and sender 1,
the envelope is delivered to 1, 2 and 3. -/
theorem fanout_including_sender_witness :
    (1, envelope Json.null ⟨2024, 6, 1, 12, 0, 0, 0⟩) ∈
      (previewStep [("abc", [1, 2, 3])] "abc" Json.null ⟨2024, 6, 1, 12, 0, 0, 0⟩
        (fun _ => false)).delivered ∧
    (2, envelope Json.null ⟨2024, 6, 1, 12, 0, 0, 0⟩) ∈
      (previewStep [("abc", [1, 2, 3])] "abc" Json.null ⟨2024, 6, 1, 12, 0, 0, 0⟩
        (fun _ => false)).delivered ∧
    (3, envelope Json.null ⟨2024, 6, 1, 12, 0, 0, 0⟩) ∈
      (previewStep [("abc", [1, 2, 3])] "abc" Json.null ⟨2024, 6, 1, 12, 0, 0, 0⟩
        (fun _ => false)).delivered := by
  have H := fanout_including_sender [("abc", [1, 2, 3])] "abc" 1 Json.null
    ⟨2024, 6, 1, 12, 0, 0, 0⟩ (fun _ => false) (by decide) (by decide)
  exact ⟨H.1, H.2 2 (by decide), H.2 3 (by decide)⟩

/-- C2: if the send to connection `c` raises during broadcast, `c` is
removed from the subscriber list of the project, every connection whose
send does not fail still receives the event, and a subsequent broadcast
to the same project does not attempt delivery to `c`. (That no error
escapes broadcast is reflected in `broadcast` being a total function:
both exception handlers in the source swallow the exception.) -/
theorem broadcast_failure_isolated (h : Hub) (p : String) (e : Json) (f : WS → Bool)
    (c : WS) (hc : c ∈ getConns h p) (hf : f c = true) :
    (∀ w ∈ getConns h p, f w = false → (w, e) ∈ (broadcast h p e f).delivered) ∧
    c ∉ getConns (broadcast h p e f).state p ∧
    ∀ (e' : Json) (f' : WS → Bool),
      c ∉ (broadcast (broadcast h p e f).state p e' f').attempted := by
  refine ⟨?_, ?_, ?_⟩
  · intro w hw hfw
    rw [broadcast_delivered]
    exact List.mem_map.mpr ⟨w, List.mem_filter.mpr ⟨hw, by simp [hfw]⟩, rfl⟩
  · rw [getConns_broadcast_self]
    intro hmem
    have hcf := (List.mem_filter.mp hmem).2
    simp [hf] at hcf
  · intro e' f'
    rw [broadcast_attempted, getConns_broadcast_self]
    intro hmem
    have hcf := (List.mem_filter.mp hmem).2
    simp [hf] at hcf

/-- Witness for C2: subscribers 1, 2, 3 of project "p", the send to 2
fails: 1 and 3 still receive the event, 2 is removed, and the next
broadcast does not attempt delivery to 2. -/
theorem broadcast_failure_isolated_witness :
    (1, Json.null) ∈
      (broadcast [("p", [1, 2, 3])] "p" Json.null (fun w => w == 2)).delivered ∧
    (3, Json.null) ∈
      (broadcast [("p", [1, 2, 3])] "p" Json.null (fun w => w == 2)).delivered ∧
    2 ∉ getConns (broadcast [("p", [1, 2, 3])] "p" Json.null (fun w => w == 2)).state "p" ∧
    2 ∉ (broadcast (broadcast [("p", [1, 2, 3])] "p" Json.null (fun w => w == 2)).state
          "p" Json.null (fun _ => false)).attempted := by
  have H := broadcast_failure_isolated [("p", [1, 2, 3])] "p" Json.null
    (fun w => w == 2) 2 (by decide) (by decide)
  exact ⟨H.1 1 (by decide) (by decide), H.1 3 (by decide) (by decide), H.2.1,
    H.2.2 Json.null (fun _ => false)⟩

/-- C3: every message delivered by a preview step is exactly the JSON
object with keys "type", "data", "ts" and no others, where "type" is the
string "event", "data" is the inbound payload forwarded verbatim, and
"ts" is the ISO-8601 rendering of the server UTC time. -/
theorem delivered_envelope_shape (h : Hub) (p : String) (data : Json)
    (t : DateTimeUtc) (f : WS → Bool) (w : WS) (m : Json)
    (hm : (w, m) ∈ (previewStep h p data t f).delivered) :
    m = envelope data t ∧
    objKeys m = ["type", "data", "ts"] ∧
    objGet "type" m = some (Json.str "event") ∧
    objGet "data" m = some data ∧
    objGet "ts" m = some (Json.str (isoformat t)) := by
  rw [previewStep, broadcast_delivered] at hm
  obtain ⟨x, hx, hpair⟩ := List.mem_map.mp hm
  injection hpair with hxw hme
  subst hme
  exact ⟨rfl, rfl, rfl, rfl, rfl⟩

/-- Witness for C3: the message delivered to subscriber 1 of project
"abc" for payload 5 carries exactly the three envelope keys, the verbatim
payload, and the formatted timestamp. -/
theorem delivered_envelope_shape_witness :
    objKeys (envelope (Json.num 5) ⟨2024, 6, 1, 12, 0, 0, 0⟩) = ["type", "data", "ts"] ∧
    objGet "data" (envelope (Json.num 5) ⟨2024, 6, 1, 12, 0, 0, 0⟩) = some (Json.num 5) ∧
    objGet "ts" (envelope (Json.num 5) ⟨2024, 6, 1, 12, 0, 0, 0⟩) =
      some (Json.str "2024-06-01T12:00:00+00:00") := by
  have H := delivered_envelope_shape [("abc", [1])] "abc" (Json.num 5)
    ⟨2024, 6, 1, 12, 0, 0, 0⟩ (fun _ => false) 1
    (envelope (Json.num 5) ⟨2024, 6, 1, 12, 0, 0, 0⟩) (List.mem_cons_self _ _)
  exact ⟨H.2.1, H.2.2.2.1, by rw [H.2.2.2.2]; rfl⟩

/-- C4: in every reachable hub state, a broadcast under project `p₁` never
delivers to a connection registered under a different project `p₂`. -/
theorem broadcast_project_isolation {s : Hub} (hr : Reachable s) {p₁ p₂ : String}
    (hne : p₁ ≠ p₂) {w : WS} (hw : w ∈ getConns s p₂) (e m : Json) (f : WS → Bool) :
    (w, m) ∉ (broadcast s p₁ e f).delivered := by
  intro hmem
  rw [broadcast_delivered] at hmem
  obtain ⟨x, hx, hpair⟩ := List.mem_map.mp hmem
  injection hpair with hxw hme
  have hw1 : w ∈ getConns s p₁ := hxw ▸ (List.mem_filter.mp hx).1
  exact hne (reachable_atMostOne hr w p₁ p₂ hw1 hw)

/-- Witness for C4: in the reachable state where 1 subscribes to "a" and
2 subscribes to "b", a broadcast under "a" delivers nothing to 2. -/
theorem broadcast_project_isolation_witness :
    (2, Json.null) ∉
      (broadcast (connect (connect [] "a" 1) "b" 2) "a" Json.null
        (fun _ => false)).delivered := by
  have hr : Reachable (connect (connect [] "a" 1) "b" 2) :=
    Reachable.step (Reachable.step Reachable.init (Step.conn [] "a" 1 (by decide)))
      (Step.conn (connect [] "a" 1) "b" 2 (by decide))
  exact broadcast_project_isolation hr (show "a" ≠ "b" by decide)
    (show 2 ∈ getConns (connect (connect [] "a" 1) "b" 2) "b" by decide)
    Json.null Json.null (fun _ => false)

/-- C5: broadcast iterates over a snapshot taken at the start of the
call: the connections to which delivery is attempted are exactly those
registered under the project when the call begins, and the removals the
broadcast itself performs on send failure (any pattern of failures `g`)
do not change which connections are visited. -/
theorem broadcast_snapshot (h : Hub) (p : String) (e : Json) (f : WS → Bool) :
    (broadcast h p e f).attempted = getConns h p ∧
    ∀ (e' : Json) (g : WS → Bool),
      (broadcast h p e' g).attempted = (broadcast h p e f).attempted := by
  refine ⟨broadcast_attempted h p e f, ?_⟩
  intro e' g
  rw [broadcast_attempted, broadcast_attempted]

/-- Counterexample for C6: the subscriber container is a Python list, and
`connect` appends unconditionally, so connecting the same handle twice
under one project leaves two entries, and one broadcast then delivers the
event to that handle twice — not "a single entry" and not "at most
once". -/
theorem double_connect_duplicates :
    getConns (connect (connect [] "p" 7) "p" 7) "p" = [7, 7] ∧
    (broadcast (connect (connect [] "p" 7) "p" 7) "p" Json.null
        (fun _ => false)).delivered = [(7, Json.null), (7, Json.null)] :=
  ⟨rfl, rfl⟩

/-- C6 amended: connect always appends the handle to the subscriber list
for the project, even when it is already registered there, and one
broadcast (with no send failures) delivers the event to each list entry,
so a doubly-connected handle receives it once per entry. -/
theorem connect_appends (h : Hub) (p : String) (w : WS) (e : Json) :
    getConns (connect h p w) p = getConns h p ++ [w] ∧
    (broadcast (connect h p w) p e (fun _ => false)).delivered =
      (getConns h p ++ [w]).map (fun x => (x, e)) := by
  refine ⟨getConns_connect_self h p w, ?_⟩
  rw [broadcast_delivered, getConns_connect_self]
  simp

/-- C7: in every hub state reachable by the operations as the system
invokes them (the endpoint registers each freshly accepted connection
exactly once, so a connect step carries a handle not currently registered
anywhere), a connection handle appears in at most one subscriber set;
and every such step preserves the invariant. -/
theorem at_most_one_project :
    (∀ h : Hub, Reachable h → AtMostOne h) ∧
    (∀ h h' : Hub, AtMostOne h → Step h h' → AtMostOne h') :=
  ⟨fun _ hr => reachable_atMostOne hr, fun _ _ inv hs => step_atMostOne hs inv⟩

/-- Witness for C7: the invariant holds in the concrete reachable state
where 1 subscribes to "a" and 2 subscribes to "b". -/
theorem at_most_one_project_witness :
    AtMostOne (connect (connect [] "a" 1) "b" 2) :=
  at_most_one_project.1 _
    (Reachable.step (Reachable.step Reachable.init (Step.conn [] "a" 1 (by decide)))
      (Step.conn (connect [] "a" 1) "b" 2 (by decide)))

/-- C8: disconnect for a connection not currently registered under the
project (never added, already removed, or key absent) raises no error
(the operation is total) and leaves the hub state exactly unchanged. -/
theorem disconnect_not_registered_noop (h : Hub) (p : String) (w : WS)
    (hw : w ∉ getConns h p) : disconnect h p w = h := by
  unfold disconnect
  cases hl : lookupProj p h with
  | none => rfl
  | some v =>
    simp only [getConns, hl, Option.getD_some] at hw
    simp [hw]

/-- Witness for C8: disconnect of a never-added handle, of a handle under
an absent key, and the second of two consecutive disconnects are all
no-ops. -/
theorem disconnect_not_registered_noop_witness :
    disconnect [] "a" 1 = [] ∧
    disconnect [("a", [1])] "a" 2 = [("a", [1])] ∧
    disconnect (disconnect [("a", [1])] "a" 1) "a" 1 = disconnect [("a", [1])] "a" 1 :=
  ⟨disconnect_not_registered_noop _ _ _ (by decide),
   disconnect_not_registered_noop _ _ _ (by decide),
   disconnect_not_registered_noop _ _ _ (by decide)⟩

/-- C9: broadcasting to a project with zero registered subscribers — key
absent or key present with an empty list — completes (the function is
total), delivers nothing, attempts nothing, and leaves the hub state
exactly unchanged. -/
theorem broadcast_empty_noop (h : Hub) (p : String) (e : Json) (f : WS → Bool)
    (he : getConns h p = []) : broadcast h p e f = ⟨h, [], []⟩ := by
  rw [broadcast, he]
  rfl

/-- Witness for C9: broadcast to an absent key and to a present key with
an empty list, both no-ops. -/
theorem broadcast_empty_noop_witness :
    broadcast [] "p" Json.null (fun _ => false) = ⟨[], [], []⟩ ∧
    broadcast [("p", [])] "p" Json.null (fun _ => false) = ⟨[("p", [])], [], []⟩ :=
  ⟨broadcast_empty_noop _ _ _ _ rfl, broadcast_empty_noop _ _ _ _ (by decide)⟩

/-- C10: login is find-or-create on email: for a stored email no new user
document is created and the stored document id is returned as user_id;
for an unknown email exactly one new document is appended; in both cases
the returned token is the freshly generated opaque UUID, independent of
the stored state. -/
theorem login_find_or_create (dbase : UserDb) (email : String) (newId : Nat)
    (u : String) :
    (login dbase email newId u).token = u ∧
    (∀ doc : UserDoc, find_one dbase email = some doc →
      (login dbase email newId u).store = dbase ∧
      (login dbase email newId u).user_id = toString doc.oid) ∧
    (find_one dbase email = none →
      (login dbase email newId u).store = dbase ++ [⟨newId, email⟩] ∧
      (login dbase email newId u).user_id = toString newId) := by
  refine ⟨?_, ?_, ?_⟩
  · cases hfind : find_one dbase email <;> simp [login, hfind]
  · intro doc hdoc
    simp [login, hdoc]
  · intro hnone
    simp [login, hnone, create_document]

/-- Witness for C10: with a stored user of id 5 under email a@b.c, login
with a@b.c reuses id 5 and stores nothing new; login with an unknown
email appends exactly one document with the fresh id 9; both return the
fresh token. -/
theorem login_find_or_create_witness :
    (login [⟨5, "a@b.c"⟩] "a@b.c" 9 "tok").token = "tok" ∧
    (login [⟨5, "a@b.c"⟩] "a@b.c" 9 "tok").store = [⟨5, "a@b.c"⟩] ∧
    (login [⟨5, "a@b.c"⟩] "a@b.c" 9 "tok").user_id = "5" ∧
    (login [⟨5, "a@b.c"⟩] "new@b.c" 9 "tok").store = [⟨5, "a@b.c"⟩, ⟨9, "new@b.c"⟩] := by
  have H1 := login_find_or_create [⟨5, "a@b.c"⟩] "a@b.c" 9 "tok"
  have H2 := login_find_or_create [⟨5, "a@b.c"⟩] "new@b.c" 9 "tok"
  have h5 := H1.2.1 ⟨5, "a@b.c"⟩ rfl
  have h9 := H2.2.2 rfl
  exact ⟨H1.1, h5.1, by rw [h5.2]; rfl, by rw [h9.1]; rfl⟩

end PreviewApi
